import Mathlib

/-!
Shallow embedding of the khaen-helper pitch-mapping and chord-analysis engine
(`src/App.tsx`).  The source file contains two variants of the application,
separated at line 707:

* variant 1 (lines 1-707): active state is a list of pitch-class numbers
  (`activeNotes`), eight chord modifiers, an analyzer without an augmented
  predicate;
* variant 2 (lines 708-1401): active state is a set of hole identities
  (`activeHoleIds`), ten modifiers (adding `aug` and `dim_mod`), an analyzer
  with an augmented predicate.

Pitch classes are embedded as `Nat` (always `< 12` in the application: every
stored value is produced by `x % 12`).  JavaScript `(a - b + 12) % 12` on
values in `[0, 11]` is embedded as the `Nat` expression `(a + 12 - b) % 12`,
which agrees with it on that range.  `getNoteVal` returns `Int` because the
source returns `-1` for an unknown name.  Key roots are the strings offered
by the key `<select>` element (`keyOptions` below); `currentKeyNotes` agrees
with the source for exactly those strings.
-/

namespace Khaen

/-- `SHARPS` table from App.tsx line 6 (written as two halves, appended). -/
def SHARPS : List String :=
  ["C", "C#", "D", "D#", "E", "F"] ++ ["F#", "G", "G#", "A", "A#", "B"]

/-- `FLATS` table from App.tsx line 7. -/
def FLATS : List String :=
  ["C", "Db", "D", "Eb", "E", "F", "Gb", "G", "Ab", "A", "Bb", "B"]

/-- The twelve values of the key-root `<select>` element (both variants offer
the same twelve strings). -/
def keyOptions : List String :=
  ["C", "Db", "D", "Eb", "E", "F", "Gb", "G", "Ab", "A", "Bb", "B"]

/-- `type ScaleType = 'major' | 'minor'`. -/
inductive ScaleType where
  | major
  | minor
deriving DecidableEq, Repr, Fintype

/-- `SCALES[kt].intervals` (App.tsx lines 21-24). -/
def scaleIntervals : ScaleType → List Nat
  | ScaleType.major => [0, 2, 4, 5, 7, 9, 11]
  | ScaleType.minor => [0, 2, 3, 5, 7, 8, 10]

/-- `SCALES[kt].qualities` (App.tsx lines 21-24). -/
def scaleQualities : ScaleType → List String
  | ScaleType.major => ["Maj", "m", "m", "Maj", "Maj", "m", "dim"]
  | ScaleType.minor => ["m", "dim", "Maj", "m", "m", "Maj", "Maj"]

/-- First character upper-cased, as in `name.charAt(0).toUpperCase() + name.slice(1)`. -/
def capitalizeFirst (s : String) : String :=
  match s.data with
  | [] => s
  | c :: rest => String.mk (c.toUpper :: rest)

/-- `getNoteVal` (App.tsx lines 58-64): index of a note name in `SHARPS`, then
in `FLATS`, `-1` when absent.  `List.idxOf`-style search is expressed with
`List.indexOf`, which returns the list length when the element is absent. -/
def getNoteVal (name : String) : Int :=
  if name = "" then -1
  else
    let n := capitalizeFirst name
    let i := SHARPS.indexOf n
    if i < SHARPS.length then (i : Int)
    else
      let j := FLATS.indexOf n
      if j < FLATS.length then (j : Int) else -1

/-- `getDisplayNote` (App.tsx lines 66-71). -/
def getDisplayNote (val : Nat) (keyRoot : String) (keyType : ScaleType) : String :=
  let useFlat := keyRoot ∈ ["F", "Bb", "Eb", "Ab", "Db", "Gb"] ∨
                 (keyType = ScaleType.minor ∧ keyRoot ∈ ["C", "F", "Bb", "Eb", "G", "D"])
  if useFlat then (FLATS.getD (val % 12) "") else (SHARPS.getD (val % 12) "")

/-- The scale construction `intervals.map(i => (rootVal + i) % 12)`
(App.tsx lines 91-95), abstracted over the numeric root value. -/
def buildScale (rootVal : Nat) (kt : ScaleType) : List Nat :=
  (scaleIntervals kt).map (fun i => (rootVal + i) % 12)

/-- `currentKeyNotes` (App.tsx lines 91-95).  For every `keyRoot ∈ keyOptions`,
`getNoteVal keyRoot` is in `[0, 11]`, so the `Int.toNat` cast is exact and the
`Nat` modulus agrees with the JavaScript one. -/
def currentKeyNotes (keyRoot : String) (kt : ScaleType) : List Nat :=
  buildScale (getNoteVal keyRoot).toNat kt

/-- The whole-step/half-step patterns the spec claims for the two modes. -/
def stepPattern : ScaleType → List Nat
  | ScaleType.major => [2, 2, 1, 2, 2, 2, 1]
  | ScaleType.minor => [2, 1, 2, 2, 1, 2, 2]

/-- First-occurrence substring replacement, the behaviour of JavaScript
`String.prototype.replace` with a string pattern (used as
`name.replace("7", "9")` in the analyzer). -/
def replaceFirstAux (pat rep : List Char) : List Char → List Char
  | [] => []
  | c :: rest =>
      if pat.isPrefixOf (c :: rest) then rep ++ (c :: rest).drop pat.length
      else c :: replaceFirstAux pat rep rest

/-- JavaScript `s.replace(pat, rep)` (first occurrence only). -/
def jsReplace (s pat rep : String) : String :=
  String.mk (replaceFirstAux pat.data rep.data s.data)

/-- Substring test, the behaviour of JavaScript `String.prototype.includes`. -/
def includesAux (pat : List Char) : List Char → Bool
  | [] => pat.isEmpty
  | c :: rest => pat.isPrefixOf (c :: rest) || includesAux pat rest

/-- JavaScript `s.includes(pat)`. -/
def jsIncludes (s pat : String) : Bool :=
  includesAux pat.data s.data

/-- The interval set a candidate root sees:
`new Set(unique.map(v => (v - rVal + 12) % 12))` (App.tsx lines 213 and 903). -/
def intsAt (unique : List Nat) (rVal : Nat) : Finset Nat :=
  (unique.map (fun v => (v + 12 - rVal) % 12)).toFinset

/-- Variant 1's shape-predicate chain (App.tsx lines 219-237): `baseType` when
some predicate matches, `none` when the candidate root is discarded
(`valid` stays `false`).  There is no augmented predicate in this variant. -/
def classify1 (ints : Finset Nat) : Option String :=
  let hasM3 := 4 ∈ ints
  let hasm3 := 3 ∈ ints
  let hasP5 := 7 ∈ ints
  let hasd5 := 6 ∈ ints
  let hasP4 := 5 ∈ ints
  let hasM2 := 2 ∈ ints
  if hasm3 ∧ hasd5 ∧ ¬hasP5 then some "dim"
  else if hasm3 ∧ hasP5 then some "m"
  else if hasM3 ∧ hasP5 then some "Maj"
  else if hasP4 ∧ hasP5 ∧ ¬hasm3 ∧ ¬hasM3 then some "sus4"
  else if hasM2 ∧ hasP5 ∧ ¬hasm3 ∧ ¬hasM3 then some "sus2"
  else if ¬hasP5 ∧ ¬hasd5 then
    (if hasM3 then some "no5Maj" else if hasm3 then some "no5m" else none)
  else if hasP5 ∧ ints.card = 2 then some "5"
  else none

/-- Variant 2's shape-predicate chain (App.tsx lines 909-929), which inserts
the augmented predicate between minor and major and excludes `aug5` in the
no-fifth test. -/
def classify2 (ints : Finset Nat) : Option String :=
  let hasM3 := 4 ∈ ints
  let hasm3 := 3 ∈ ints
  let hasP5 := 7 ∈ ints
  let hasd5 := 6 ∈ ints
  let hasAug5 := 8 ∈ ints
  let hasP4 := 5 ∈ ints
  let hasM2 := 2 ∈ ints
  if hasm3 ∧ hasd5 ∧ ¬hasP5 then some "dim"
  else if hasm3 ∧ hasP5 then some "m"
  else if hasM3 ∧ hasAug5 then some "aug"
  else if hasM3 ∧ hasP5 then some "Maj"
  else if hasP4 ∧ hasP5 ∧ ¬hasm3 ∧ ¬hasM3 then some "sus4"
  else if hasM2 ∧ hasP5 ∧ ¬hasm3 ∧ ¬hasM3 then some "sus2"
  else if ¬hasP5 ∧ ¬hasd5 ∧ ¬hasAug5 then
    (if hasM3 then some "no5Maj" else if hasm3 then some "no5m" else none)
  else if hasP5 ∧ ints.card = 2 then some "5"
  else none

/-- The ordered shape-predicate list exactly as the claim states it (first
match winning): diminished (m3 and d5 present, P5 absent), minor (m3 and P5),
augmented (M3 and aug5), major (M3 and P5), sus4 (P4 and P5, no third),
sus2 (M2 and P5, no third), no-fifth variants (a third present, fifth absent
— read as no perfect, diminished or augmented fifth), power chord (P5 present
and exactly 2 intervals). -/
def specShapeList (ints : Finset Nat) : Option String :=
  if 3 ∈ ints ∧ 6 ∈ ints ∧ ¬(7 ∈ ints) then some "dim"
  else if 3 ∈ ints ∧ 7 ∈ ints then some "m"
  else if 4 ∈ ints ∧ 8 ∈ ints then some "aug"
  else if 4 ∈ ints ∧ 7 ∈ ints then some "Maj"
  else if 5 ∈ ints ∧ 7 ∈ ints ∧ ¬(3 ∈ ints) ∧ ¬(4 ∈ ints) then some "sus4"
  else if 2 ∈ ints ∧ 7 ∈ ints ∧ ¬(3 ∈ ints) ∧ ¬(4 ∈ ints) then some "sus2"
  else if ¬(7 ∈ ints) ∧ ¬(6 ∈ ints) ∧ ¬(8 ∈ ints) then
    (if 4 ∈ ints then some "no5Maj" else if 3 ∈ ints then some "no5m" else none)
  else if 7 ∈ ints ∧ ints.card = 2 then some "5"
  else none

/-- The same predicate list with the augmented predicate omitted and a
no-fifth test that ignores the augmented fifth: what variant 1 actually
implements. -/
def specShapeListNoAug (ints : Finset Nat) : Option String :=
  if 3 ∈ ints ∧ 6 ∈ ints ∧ ¬(7 ∈ ints) then some "dim"
  else if 3 ∈ ints ∧ 7 ∈ ints then some "m"
  else if 4 ∈ ints ∧ 7 ∈ ints then some "Maj"
  else if 5 ∈ ints ∧ 7 ∈ ints ∧ ¬(3 ∈ ints) ∧ ¬(4 ∈ ints) then some "sus4"
  else if 2 ∈ ints ∧ 7 ∈ ints ∧ ¬(3 ∈ ints) ∧ ¬(4 ∈ ints) then some "sus2"
  else if ¬(7 ∈ ints) ∧ ¬(6 ∈ ints) then
    (if 4 ∈ ints then some "no5Maj" else if 3 ∈ ints then some "no5m" else none)
  else if 7 ∈ ints ∧ ints.card = 2 then some "5"
  else none

/-- `has7th` (App.tsx line 265 / 960):
`hasm7 || hasM7 || (hasdim7 && baseType === "dim")`. -/
def has7th (ints : Finset Nat) (baseType : String) : Bool :=
  decide (10 ∈ ints) || decide (11 ∈ ints) || (decide (9 ∈ ints) && decide (baseType = "dim"))

/-- The seventh-suffix chain of variant 1 (App.tsx lines 243-263), starting
from the candidate root's display name. -/
def name7v1 (ints : Finset Nat) (baseType rName : String) : String :=
  if 10 ∈ ints then
    (if baseType = "Maj" ∨ baseType = "no5Maj" then rName ++ "7"
     else if baseType = "m" ∨ baseType = "no5m" then rName ++ "m7"
     else if baseType = "dim" then rName ++ "m7b5"
     else if baseType = "sus4" then rName ++ "7sus4"
     else if baseType = "sus2" then rName ++ "7sus2"
     else rName)
  else if 11 ∈ ints then
    (if baseType = "m" ∨ baseType = "no5m" then rName ++ "m(maj7)"
     else rName ++ "maj7")
  else if 9 ∈ ints ∧ baseType = "dim" then rName ++ "dim7"
  else
    (if baseType = "m" then rName ++ "m"
     else if baseType = "dim" then rName ++ "dim"
     else if baseType = "sus4" then rName ++ "sus4"
     else if baseType = "sus2" then rName ++ "sus2"
     else if baseType = "5" then rName ++ "5"
     else if baseType = "no5m" then rName ++ "m"
     else rName)

/-- The added-ninth stage (App.tsx lines 267-270 / 962-965), identical in both
variants: with a seventh present the first "7" in the name is replaced by "9",
otherwise "(add9)" is appended. -/
def name9 (ints : Finset Nat) (baseType n : String) : String :=
  if 2 ∈ ints ∧ baseType ≠ "sus2" then
    (if has7th ints baseType then jsReplace n "7" "9" else n ++ "(add9)")
  else n

/-- The added-eleventh stage (App.tsx lines 271-273 / 966-968). -/
def name11 (ints : Finset Nat) (baseType n : String) : String :=
  if 5 ∈ ints ∧ baseType ≠ "sus4" then n ++ "(add11)" else n

/-- The thirteenth/sixth stage (App.tsx lines 274-281 / 969-976), identical in
both variants: guarded by a 13th interval with no minor/major seventh and no
"dim7" in the name so far; with a seventh the first "7" becomes "13",
otherwise "6" (major/minor shapes) or "(add13)" is appended. -/
def name13 (ints : Finset Nat) (baseType n : String) : String :=
  if 9 ∈ ints ∧ ¬(10 ∈ ints) ∧ ¬(11 ∈ ints) ∧ ¬(jsIncludes n "dim7" = true) then
    (if has7th ints baseType then jsReplace n "7" "13"
     else if baseType = "Maj" ∨ baseType = "no5Maj" then n ++ "6"
     else if baseType = "m" ∨ baseType = "no5m" then n ++ "6"
     else n ++ "(add13)")
  else n

/-- The no-fifth suffix (App.tsx line 283 / 978). -/
def nameNo5 (baseType n : String) : String :=
  if baseType = "no5Maj" ∨ baseType = "no5m" then n ++ "(no5)" else n

/-- A candidate's full rendered name in variant 1: the sequential updates the
source applies to `name` (App.tsx lines 243-283). -/
def buildName1 (ints : Finset Nat) (baseType rName : String) : String :=
  nameNo5 baseType (name13 ints baseType (name11 ints baseType (name9 ints baseType (name7v1 ints baseType rName))))

/-- A surviving candidate root together with its rendered name
(`candidates.push({ root: rVal, name })`). -/
structure Candidate where
  root : Nat
  name : String
deriving DecidableEq, Repr

/-- `[...new Set(activeNotes)].sort((a, b) => a - b)` (App.tsx line 202):
the distinct note values in ascending order. -/
def uniqueSorted (notes : List Nat) : List Nat :=
  List.insertionSort (fun a b => a ≤ b) notes.dedup

/-- One loop iteration of variant 1's candidate generation (App.tsx lines
210-286): `none` exactly when `valid` stays false and the root is skipped. -/
def candAt1 (unique : List Nat) (keyRoot : String) (kt : ScaleType) (rVal : Nat) :
    Option Candidate :=
  let ints := intsAt unique rVal
  match classify1 ints with
  | none => none
  | some baseType => some ⟨rVal, buildName1 ints baseType (getDisplayNote rVal keyRoot kt)⟩

/-- Variant 1's candidate list, in the loop's order (ascending candidate root). -/
def candidates1 (notes : List Nat) (keyRoot : String) (kt : ScaleType) : List Candidate :=
  (uniqueSorted notes).filterMap (candAt1 (uniqueSorted notes) keyRoot kt)

/-- The part of the ranking comparator after the hint-root test (App.tsx
lines 295-302 / 990-997). -/
def cmpTail (keyRoot : String) (kt : ScaleType) (a b : Candidate) : Int :=
  let keyVal := getNoteVal keyRoot
  if (a.root : Int) = keyVal ∧ (b.root : Int) ≠ keyVal then -1
  else if (b.root : Int) = keyVal ∧ (a.root : Int) ≠ keyVal then 1
  else
    let aIn := a.root ∈ currentKeyNotes keyRoot kt
    let bIn := b.root ∈ currentKeyNotes keyRoot kt
    if aIn ∧ ¬bIn then -1
    else if bIn ∧ ¬aIn then 1
    else (a.name.length : Int) - (b.name.length : Int)

/-- The full ranking comparator (App.tsx lines 290-303 / 985-998), identical
in both variants.  Returns the JavaScript comparator's number. -/
def cmpFn (hintRoot : Option Nat) (keyRoot : String) (kt : ScaleType) (a b : Candidate) : Int :=
  match hintRoot with
  | some h =>
      if a.root = h ∧ b.root ≠ h then -1
      else if b.root = h ∧ a.root ≠ h then 1
      else cmpTail keyRoot kt a b
  | none => cmpTail keyRoot kt a b

/-- The "sorts no later than" relation induced by the comparator. -/
def candidateOrder (hintRoot : Option Nat) (keyRoot : String) (kt : ScaleType)
    (a b : Candidate) : Prop :=
  cmpFn hintRoot keyRoot kt a b ≤ 0

instance candidateOrder.decRel (hintRoot : Option Nat) (keyRoot : String) (kt : ScaleType) :
    DecidableRel (candidateOrder hintRoot keyRoot kt) :=
  fun a b => inferInstanceAs (Decidable (cmpFn hintRoot keyRoot kt a b ≤ 0))

/-- `candidates.sort(...)` — JavaScript's `Array.prototype.sort` is a stable
sort consistent with the comparator; the comparator is a total preorder
(proved below), for which the stable-sorted result is unique, so a stable
insertion sort models it exactly. -/
def sortedCandidates1 (notes : List Nat) (hintRoot : Option Nat) (keyRoot : String)
    (kt : ScaleType) : List Candidate :=
  List.insertionSort (candidateOrder hintRoot keyRoot kt) (candidates1 notes keyRoot kt)

/-- The analyzer's displayed result `{ main, sub, notes }`. -/
structure AnalyzeResult where
  main : String
  sub : String
  notes : String
deriving DecidableEq, Repr

/-- `"Notes: " + noteNames.join(" - ")`. -/
def notesLine (notes : List Nat) (keyRoot : String) (kt : ScaleType) : String :=
  "Notes: " ++ String.intercalate " - " ((uniqueSorted notes).map (fun v => getDisplayNote v keyRoot kt))

/-- Variant 1's `analyzedChord` (App.tsx lines 201-316).  The source checks
`candidates.length > 0` before sorting; since sorting permutes the list, that
is the same as matching on the sorted list, which is done here. -/
def analyzedChord1 (notes : List Nat) (hintRoot : Option Nat) (keyRoot : String)
    (kt : ScaleType) : AnalyzeResult :=
  if uniqueSorted notes = [] then ⟨"-", "Ready", "-"⟩
  else
    match sortedCandidates1 notes hintRoot keyRoot kt with
    | [] => ⟨"?", "Unknown Shape", notesLine notes keyRoot kt⟩
    | best :: others =>
        ⟨best.name,
         if others = [] then "Exact Match"
         else "Or: " ++ String.intercalate " / " (others.map (fun c => c.name)),
         notesLine notes keyRoot kt⟩

/-- The root of the primary (top-ranked) candidate, when any candidate
survives: the `.root` field of `candidates[0]` after the sort. -/
def primaryRoot1 (notes : List Nat) (hintRoot : Option Nat) (keyRoot : String)
    (kt : ScaleType) : Option Nat :=
  (sortedCandidates1 notes hintRoot keyRoot kt).head?.map (fun c => c.root)

/-- `type: 'triad' | '7th'` of a chord selection. -/
inductive ChordType where
  | triad
  | seventh
deriving DecidableEq, Repr

/-- Variant 1's eight modifiers (App.tsx line 11). -/
inductive Mod1 where
  | add9
  | add11
  | add13
  | add6
  | no3
  | no5
  | sus4
  | sus2
deriving DecidableEq, Repr

/-- One branch of variant 1's `modifiers.forEach` body (App.tsx lines 183-192). -/
def applyMod1 : Mod1 → List Nat → List Nat
  | Mod1.add9, l => l ++ [2]
  | Mod1.add11, l => l ++ [5]
  | Mod1.add13, l => l ++ [9]
  | Mod1.add6, l => l ++ [9]
  | Mod1.no3, l => l.filter (fun i => decide (i ≠ 3 ∧ i ≠ 4))
  | Mod1.no5, l => l.filter (fun i => decide (i ≠ 7 ∧ i ≠ 6))
  | Mod1.sus4, l => (l ++ [5]).filter (fun i => decide (i ≠ 3 ∧ i ≠ 4))
  | Mod1.sus2, l => (l ++ [2]).filter (fun i => decide (i ≠ 3 ∧ i ≠ 4))

/-- The modifier branches in the textual order of the `forEach` body. -/
def mod1List : List Mod1 :=
  [Mod1.add9, Mod1.add11, Mod1.add13, Mod1.add6, Mod1.no3, Mod1.no5, Mod1.sus4, Mod1.sus2]

/-- Variant 1 iterates the active modifiers as a JavaScript `Set`, i.e. in
insertion order.  Every modifier either appends values from {2, 5, 9} or
filters out values from {3, 4, 6, 7}; the two ranges are disjoint, so the
multiset order does not affect the resulting value set, and applying the
active modifiers in the fixed branch order is observationally faithful
(the target values only ever feed set-membership tests and a
de-duplicating analyzer). -/
def applyMods1 (mods : Finset Mod1) (l : List Nat) : List Nat :=
  (mod1List.filter (fun m => decide (m ∈ mods))).foldl (fun acc m => applyMod1 m acc) l

/-- Variant 1's interval synthesis (App.tsx lines 98-192): base triad by
quality, a generic seventh push, then — when the root is diatonic
(`indexOf` ≠ -1, i.e. membership) and a seventh was asked — the wholesale
replacement by the four diatonic scale-relative intervals, then modifiers.
The major-key V7 adjustment at source lines 136-143 mutates `intervals` but
is immediately overwritten by the unconditional replacement (both the minor
branch and the major `else` branch perform it), so it has no effect on the
result. -/
def synthIntervals1 (keyRoot : String) (kt : ScaleType) (root : Nat) (q : String)
    (ty : Option ChordType) (mods : Finset Mod1) : List Nat :=
  let s := currentKeyNotes keyRoot kt
  let i0 : List Nat := [0]
  let i1 := if q = "Maj" then i0 ++ [4, 7]
            else if q = "m" then i0 ++ [3, 7]
            else if q = "dim" then i0 ++ [3, 6]
            else i0
  let i2 := if ty = some ChordType.seventh then
              (if q = "Maj" then i1 ++ [11]
               else if q = "m" then i1 ++ [10]
               else if q = "dim" then i1 ++ [10]
               else i1)
            else i1
  let i3 := if root ∈ s ∧ ty = some ChordType.seventh then
              (let degreeIdx := s.indexOf root
               [0, (s.getD ((degreeIdx + 2) % 7) 0 + 12 - root) % 12,
                   (s.getD ((degreeIdx + 4) % 7) 0 + 12 - root) % 12,
                   (s.getD ((degreeIdx + 6) % 7) 0 + 12 - root) % 12])
            else i2
  applyMods1 mods i3

/-- `intervals.map(i => (root + i) % 12)` (App.tsx line 194). -/
def targetVals1 (keyRoot : String) (kt : ScaleType) (root : Nat) (q : String)
    (ty : Option ChordType) (mods : Finset Mod1) : List Nat :=
  (synthIntervals1 keyRoot kt root q ty mods).map (fun i => (root + i) % 12)

/-- Variant 2's ten modifiers (App.tsx line 716). -/
inductive Mod2 where
  | add9
  | add11
  | add13
  | add6
  | no3
  | no5
  | sus4
  | sus2
  | aug
  | dimMod
deriving DecidableEq, Repr

/-- Variant 2's interval synthesis (App.tsx lines 817-874): base triad, then
the diatonic-seventh replacement (no generic seventh push in this variant),
then the modifiers in the source's fixed order no3, no5, sus4, sus2, aug,
dim_mod, add9, add11, add13, add6. -/
def synthIntervals2 (keyRoot : String) (kt : ScaleType) (root : Nat) (q : String)
    (ty : Option ChordType) (mods : Finset Mod2) : List Nat :=
  let s := currentKeyNotes keyRoot kt
  let i0 : List Nat := [0]
  let i1 := if q = "Maj" then i0 ++ [4, 7]
            else if q = "m" then i0 ++ [3, 7]
            else if q = "dim" then i0 ++ [3, 6]
            else i0
  let i2 := if root ∈ s ∧ ty = some ChordType.seventh then
              (let degreeIdx := s.indexOf root
               [0, (s.getD ((degreeIdx + 2) % 7) 0 + 12 - root) % 12,
                   (s.getD ((degreeIdx + 4) % 7) 0 + 12 - root) % 12,
                   (s.getD ((degreeIdx + 6) % 7) 0 + 12 - root) % 12])
            else i1
  let i3 := if Mod2.no3 ∈ mods then i2.filter (fun i => decide (i ≠ 3 ∧ i ≠ 4)) else i2
  let i4 := if Mod2.no5 ∈ mods then i3.filter (fun i => decide (i ≠ 7 ∧ i ≠ 6)) else i3
  let i5 := if Mod2.sus4 ∈ mods then (i4 ++ [5]).filter (fun i => decide (i ≠ 3 ∧ i ≠ 4)) else i4
  let i6 := if Mod2.sus2 ∈ mods then (i5 ++ [2]).filter (fun i => decide (i ≠ 3 ∧ i ≠ 4)) else i5
  let i7 := if Mod2.aug ∈ mods then (i6 ++ [8]).filter (fun i => decide (i ≠ 7 ∧ i ≠ 6)) else i6
  let i8 := if Mod2.dimMod ∈ mods then (i7 ++ [6]).filter (fun i => decide (i ≠ 7 ∧ i ≠ 8)) else i7
  let i9 := if Mod2.add9 ∈ mods then i8 ++ [2] else i8
  let i10 := if Mod2.add11 ∈ mods then i9 ++ [5] else i9
  let i11 := if Mod2.add13 ∈ mods then i10 ++ [9] else i10
  if Mod2.add6 ∈ mods then i11 ++ [9] else i11

/-- `[...new Set(intervals.map(i => (root + i) % 12))]` (App.tsx line 874). -/
def targetVals2 (keyRoot : String) (kt : ScaleType) (root : Nat) (q : String)
    (ty : Option ChordType) (mods : Finset Mod2) : List Nat :=
  ((synthIntervals2 keyRoot kt root q ty mods).map (fun i => (root + i) % 12)).dedup

/-- `ChordSelection` of variant 1 (App.tsx lines 13-18); `null` fields are
`none`, the modifier set is a finite set of `Mod1`. -/
structure ChordSelection1 where
  rootVal : Option Nat
  quality : Option String
  type : Option ChordType
  modifiers : Finset Mod1
deriving DecidableEq

/-- The all-"none" selection `{ rootVal: null, quality: null, type: null,
modifiers: new Set() }`. -/
def noneSelection1 : ChordSelection1 := ⟨none, none, none, ∅⟩

/-- Variant 1's interaction state: `activeNotes` (a list, possibly with
repeats — MIDI note-on pushes unconditionally), `hintRoot`, `selection`. -/
structure AppState1 where
  activeNotes : List Nat
  hintRoot : Option Nat
  selection : ChordSelection1
deriving DecidableEq

/-- `resetAll` of variant 1 (App.tsx lines 370-374): clears the selection,
the hint root and the active notes. -/
def resetAll1 : AppState1 := ⟨[], none, noneSelection1⟩

/-- `selectChord` (App.tsx lines 385-397): re-clicking the active chord
resets everything, otherwise the selection is written whole and the hint
root set to the chord's root. -/
def selectChord1 (rootVal : Nat) (quality : String) (ty : ChordType) (isActive : Bool)
    (s : AppState1) : AppState1 :=
  if isActive then resetAll1
  else { s with selection := ⟨some rootVal, some quality, some ty, ∅⟩,
                hintRoot := some rootVal }

/-- `toggleMod` (App.tsx lines 376-383): toggles one modifier inside the
current selection, leaving rootVal/quality/type untouched. -/
def toggleMod1 (m : Mod1) (s : AppState1) : AppState1 :=
  { s with selection :=
      { s.selection with modifiers :=
          (if m ∈ s.selection.modifiers then s.selection.modifiers.erase m
           else insert m s.selection.modifiers) } }

/-- `handleHoleClick` of variant 1 (App.tsx lines 399-417): clears the
selection, toggles the clicked hole's note value, and sets the hint root
when the toggle adds the first note (`!exists && newNotes.length === 1`). -/
def handleHoleClick1 (keyRoot : String) (kt : ScaleType) (degIndex : Nat)
    (s : AppState1) : AppState1 :=
  let noteVal := (currentKeyNotes keyRoot kt).getD degIndex 0
  let alreadyOn := noteVal ∈ s.activeNotes
  let newNotes := if alreadyOn then s.activeNotes.filter (fun n => decide (n ≠ noteVal))
                  else s.activeNotes ++ [noteVal]
  { activeNotes := newNotes
    hintRoot := if ¬alreadyOn ∧ newNotes.length = 1 then some noteVal else s.hintRoot
    selection := noneSelection1 }

/-- `onMIDIMessage` of variant 1 (App.tsx lines 324-341), for a three-byte
message `(d0, d1, d2)`: note-on appends `d1 % 12`, note-off filters it out,
both clear the selection; any other status byte is ignored.  The hint root
is never touched. -/
def onMIDIMessage1 (d0 d1 d2 : Nat) (s : AppState1) : AppState1 :=
  let cmd := d0 &&& 0xf0
  let noteVal := d1 % 12
  if cmd = 144 ∧ d2 > 0 then
    { s with selection := noneSelection1, activeNotes := s.activeNotes ++ [noteVal] }
  else if cmd = 128 ∨ (cmd = 144 ∧ d2 = 0) then
    { s with selection := noneSelection1,
             activeNotes := s.activeNotes.filter (fun n => decide (n ≠ noteVal)) }
  else s

/-- `ChordSelection` of variant 2 (modifier set over `Mod2`). -/
structure ChordSelection2 where
  rootVal : Option Nat
  quality : Option String
  type : Option ChordType
  modifiers : Finset Mod2
deriving DecidableEq

/-- Variant 2's all-"none" selection. -/
def noneSelection2 : ChordSelection2 := ⟨none, none, none, ∅⟩

/-- The static hole layout (App.tsx lines 34-54 / 739-761). -/
structure HoleConfig where
  id : String
  degIndex : Nat
  label : String
  colorClass : String
deriving DecidableEq, Repr

/-- `LEFT_COL`. -/
def LEFT_COL : List HoleConfig :=
  [⟨"L8", 6, "7", "num-blue"⟩, ⟨"L7", 5, "6", "num-blue"⟩, ⟨"L6", 6, "7", "num"⟩,
   ⟨"L5", 5, "6", "num"⟩, ⟨"L4", 4, "5", "num"⟩, ⟨"L3", 3, "4", "num"⟩,
   ⟨"L2", 1, "2", "num"⟩, ⟨"L1", 2, "3", "num-blue"⟩]

/-- `RIGHT_COL`. -/
def RIGHT_COL : List HoleConfig :=
  [⟨"R8", 0, "1", "num-green"⟩, ⟨"R7", 4, "5", "num-blue"⟩, ⟨"R6", 3, "4", "num-blue"⟩,
   ⟨"R5", 1, "2", "num-blue"⟩, ⟨"R4", 0, "1", "num-blue"⟩, ⟨"R3", 6, "7", "num"⟩,
   ⟨"R2", 2, "3", "num"⟩, ⟨"R1", 0, "1", "num"⟩]

/-- `ALL_HOLES = [...LEFT_COL, ...RIGHT_COL]` (App.tsx line 761). -/
def ALL_HOLES : List HoleConfig := LEFT_COL ++ RIGHT_COL

/-- A hole's sounding pitch, `currentKeyNotes[hole.degIndex]`. -/
def holePitch (keyRoot : String) (kt : ScaleType) (h : HoleConfig) : Nat :=
  (currentKeyNotes keyRoot kt).getD h.degIndex 0

/-- Variant 2's interaction state: active hole identities (a JavaScript
`Set`, modeled as a duplicate-free list), hint root, selection. -/
structure AppState2 where
  activeHoleIds : List String
  hintRoot : Option Nat
  selection : ChordSelection2
deriving DecidableEq

/-- `handleHoleClick` of variant 2 (App.tsx lines 1102-1123): clears the
selection, toggles the clicked hole id, and sets the hint root when the
toggle adds the first hole (`next.size === 1`). -/
def handleHoleClick2 (keyRoot : String) (kt : ScaleType) (holeId : String) (degIndex : Nat)
    (s : AppState2) : AppState2 :=
  let noteVal := (currentKeyNotes keyRoot kt).getD degIndex 0
  let alreadyOn := holeId ∈ s.activeHoleIds
  let next := if alreadyOn then s.activeHoleIds.filter (fun i => decide (i ≠ holeId))
              else s.activeHoleIds ++ [holeId]
  { activeHoleIds := next
    hintRoot := if ¬alreadyOn ∧ next.length = 1 then some noteVal else s.hintRoot
    selection := noneSelection2 }

/-- JavaScript `Set.prototype.add` on a duplicate-free list. -/
def jsSetAdd (l : List String) (x : String) : List String :=
  if x ∈ l then l else l ++ [x]

/-- `onMIDIMessage` of variant 2 (App.tsx lines 1019-1049): note-on adds
every hole sounding `d1 % 12`, note-off deletes every such hole; both clear
the selection; other status bytes are ignored; the hint root is never
touched. -/
def onMIDIMessage2 (keyRoot : String) (kt : ScaleType) (d0 d1 d2 : Nat)
    (s : AppState2) : AppState2 :=
  let cmd := d0 &&& 0xf0
  let noteVal := d1 % 12
  if cmd = 144 ∧ d2 > 0 then
    { s with selection := noneSelection2,
             activeHoleIds :=
               (ALL_HOLES.filter (fun h => decide (holePitch keyRoot kt h = noteVal))).foldl
                 (fun acc h => jsSetAdd acc h.id) s.activeHoleIds }
  else if cmd = 128 ∨ (cmd = 144 ∧ d2 = 0) then
    { s with selection := noneSelection2,
             activeHoleIds := s.activeHoleIds.filter (fun i => decide (i ∉
               ((ALL_HOLES.filter (fun h => decide (holePitch keyRoot kt h = noteVal))).map
                 (fun h => h.id)))) }
  else s

/-- Variant 2's preset application (App.tsx lines 876-885): the holes whose
sounding pitch belongs to the synthesized target values. -/
def newHoleIds (targetVals : List Nat) (keyRoot : String) (kt : ScaleType) : List String :=
  (ALL_HOLES.filter (fun h => decide (holePitch keyRoot kt h ∈ targetVals))).map (fun h => h.id)

/-- `activeNoteValues` (App.tsx lines 805-814): the set of sounding pitches
of the active holes, by id lookup in `ALL_HOLES`. -/
def activeNoteValues (ids : List String) (keyRoot : String) (kt : ScaleType) : List Nat :=
  (ids.filterMap (fun i =>
    (ALL_HOLES.find? (fun h => h.id == i)).map (fun h => holePitch keyRoot kt h))).dedup

/-- 1 when the candidate's root misses the hint root (0 when it matches, and
0 for every candidate when no hint is set). -/
def hintMiss (hintRoot : Option Nat) (c : Candidate) : Nat :=
  match hintRoot with
  | some h => if c.root = h then 0 else 1
  | none => 0

/-- 1 when the candidate's root is not the current key's root value. -/
def keyMiss (keyRoot : String) (c : Candidate) : Nat :=
  if (c.root : Int) = getNoteVal keyRoot then 0 else 1

/-- 1 when the candidate's root is not diatonic to the current key. -/
def diatonicMiss (keyRoot : String) (kt : ScaleType) (c : Candidate) : Nat :=
  if c.root ∈ currentKeyNotes keyRoot kt then 0 else 1

/-- The four-part ranking key the claim describes: hint-root match, key-root
match, diatonic membership, rendered-name length (smaller sorts first). -/
def rankKey (hintRoot : Option Nat) (keyRoot : String) (kt : ScaleType) (c : Candidate) :
    Nat × Nat × Nat × Nat :=
  (hintMiss hintRoot c, keyMiss keyRoot c, diatonicMiss keyRoot kt c, c.name.length)

/-- Lexicographic comparison of four-part ranking keys. -/
def lex4Le (x y : Nat × Nat × Nat × Nat) : Prop :=
  x.1 < y.1 ∨ (x.1 = y.1 ∧
    (x.2.1 < y.2.1 ∨ (x.2.1 = y.2.1 ∧
      (x.2.2.1 < y.2.2.1 ∨ (x.2.2.1 = y.2.2.1 ∧ x.2.2.2 ≤ y.2.2.2)))))

set_option maxHeartbeats 1000000 in
theorem cmpFn_le_iff (hintRoot : Option Nat) (keyRoot : String) (kt : ScaleType)
    (a b : Candidate) :
    cmpFn hintRoot keyRoot kt a b ≤ 0 ↔
      lex4Le (rankKey hintRoot keyRoot kt a) (rankKey hintRoot keyRoot kt b) := by
  cases hintRoot with
  | none =>
      simp only [cmpFn, cmpTail, rankKey, hintMiss, keyMiss, diatonicMiss, lex4Le]
      split_ifs <;> first | omega | tauto | (simp_all <;> omega)
  | some h =>
      simp only [cmpFn, cmpTail, rankKey, hintMiss, keyMiss, diatonicMiss, lex4Le]
      split_ifs <;> first | omega | tauto | (simp_all <;> omega)

theorem lex4Le_total (x y : Nat × Nat × Nat × Nat) : lex4Le x y ∨ lex4Le y x := by
  unfold lex4Le; omega

theorem lex4Le_trans {x y z : Nat × Nat × Nat × Nat} :
    lex4Le x y → lex4Le y z → lex4Le x z := by
  unfold lex4Le; omega

instance candidateOrder.isTrans (hintRoot : Option Nat) (keyRoot : String) (kt : ScaleType) :
    IsTrans Candidate (candidateOrder hintRoot keyRoot kt) :=
  ⟨fun a b c hab hbc => by
    rw [candidateOrder, cmpFn_le_iff] at *
    exact lex4Le_trans hab hbc⟩

instance candidateOrder.isTotal (hintRoot : Option Nat) (keyRoot : String) (kt : ScaleType) :
    IsTotal Candidate (candidateOrder hintRoot keyRoot kt) :=
  ⟨fun a b => by
    rw [candidateOrder, candidateOrder, cmpFn_le_iff, cmpFn_le_iff]
    exact lex4Le_total _ _⟩

theorem insertionSort_eq_nil_iff {α : Type} {r : α → α → Prop} [DecidableRel r]
    {l : List α} : List.insertionSort r l = [] ↔ l = [] := by
  constructor
  · intro h
    have hp := List.perm_insertionSort r l
    rw [h] at hp
    exact hp.symm.eq_nil
  · intro h; subst h; rfl

theorem uniqueSorted_eq_nil {notes : List Nat} : uniqueSorted notes = [] ↔ notes = [] := by
  rw [uniqueSorted, insertionSort_eq_nil_iff, List.dedup_eq_nil]

end Khaen

open Khaen

/-- C7: the analyzer is total — the empty pitch set yields the Ready/no-chord
sentinel (not an error), and every non-empty pitch set yields either the name
of a surviving candidate as primary or the "Unknown Shape" sentinel when
every candidate root was discarded. -/
theorem c7_no_error_path :
    ∀ (notes : List Nat) (hintRoot : Option Nat) (keyRoot : String) (kt : ScaleType),
      (notes = [] → analyzedChord1 notes hintRoot keyRoot kt = ⟨"-", "Ready", "-"⟩) ∧
      (notes ≠ [] →
        (candidates1 notes keyRoot kt = [] ∧
          analyzedChord1 notes hintRoot keyRoot kt =
            ⟨"?", "Unknown Shape", notesLine notes keyRoot kt⟩) ∨
        (∃ best others, sortedCandidates1 notes hintRoot keyRoot kt = best :: others ∧
          best ∈ candidates1 notes keyRoot kt ∧
          (analyzedChord1 notes hintRoot keyRoot kt).main = best.name)) := by
  intro notes hintRoot keyRoot kt
  constructor
  · intro h
    subst h
    have he : uniqueSorted ([] : List Nat) = [] := uniqueSorted_eq_nil.mpr rfl
    rw [analyzedChord1, if_pos he]
  · intro h
    have hu : ¬ uniqueSorted notes = [] := fun hc => h (uniqueSorted_eq_nil.mp hc)
    rcases hs : sortedCandidates1 notes hintRoot keyRoot kt with _ | ⟨best, others⟩
    · left
      have hc : candidates1 notes keyRoot kt = [] := by
        rw [sortedCandidates1, insertionSort_eq_nil_iff] at hs
        exact hs
      refine ⟨hc, ?_⟩
      rw [analyzedChord1, if_neg hu, hs]
    · right
      refine ⟨best, others, rfl, ?_, ?_⟩
      · have hm : best ∈ sortedCandidates1 notes hintRoot keyRoot kt := by
          rw [hs]; exact List.mem_cons_self _ _
        exact (List.perm_insertionSort _ _).mem_iff.mp hm
      · rw [analyzedChord1, if_neg hu, hs]

/-- C7 witness. -/
theorem c7_no_error_path_witness :
    analyzedChord1 [] none "C" ScaleType.major = ⟨"-", "Ready", "-"⟩ :=
  (c7_no_error_path [] none "C" ScaleType.major).1 rfl

/-- C9: extension naming by digit substitution, shared verbatim by both
variants — with a 9th interval present (base shape not sus2), a present
seventh has the first "7" of the name replaced by "9", otherwise "(add9)" is
appended; with a 13th interval and no minor/major seventh and no "dim7" in
the name, a present seventh's "7" becomes "13", otherwise "6" (major/minor
shapes, including their no-fifth forms) or "(add13)" is appended. -/
theorem c9_extension_naming :
    ∀ (ints : Finset Nat) (baseType n : String),
      (2 ∈ ints → baseType ≠ "sus2" →
        name9 ints baseType n =
          (if has7th ints baseType then jsReplace n "7" "9" else n ++ "(add9)")) ∧
      (9 ∈ ints → ¬(10 ∈ ints) → ¬(11 ∈ ints) → jsIncludes n "dim7" = false →
        name13 ints baseType n =
          (if has7th ints baseType then jsReplace n "7" "13"
           else if baseType = "Maj" ∨ baseType = "no5Maj" ∨ baseType = "m" ∨ baseType = "no5m"
             then n ++ "6"
           else n ++ "(add13)")) := by
  intro ints baseType n
  refine ⟨fun h2 hbt => ?_, fun h9 h10 h11 hdim => ?_⟩
  · rw [name9, if_pos ⟨h2, hbt⟩]
  · rw [name13, if_pos ⟨h9, h10, h11, by simp [hdim]⟩]
    split_ifs <;> first | rfl | tauto

/-- C9 witness. -/
theorem c9_extension_naming_witness :
    name9 ({0, 2, 9} : Finset Nat) "Maj" "C" = "C(add9)" ∧
    name13 ({0, 2, 9} : Finset Nat) "Maj" "C(add9)" = "C(add9)6" := by
  constructor
  · have h := (c9_extension_naming ({0, 2, 9} : Finset Nat) "Maj" "C").1
      (by decide) (by decide)
    rw [h]; decide
  · have h := (c9_extension_naming ({0, 2, 9} : Finset Nat) "Maj" "C(add9)").2
      (by decide) (by decide) (by decide) (by decide)
    rw [h]; decide

/-- C4: the analyzer ranks candidates lexicographically by (1) hint-root
match, (2) key-root match, (3) diatonic membership, (4) rendered-name length
(the comparator agrees with the lexicographic order on the four-part key);
the sorted candidate list is a comparator-sorted permutation of the candidate
list, its head is emitted as the primary name and the remaining candidates,
in rank order, form the alternates line. -/
theorem c4_candidate_ranking :
    ∀ (hintRoot : Option Nat) (keyRoot : String) (kt : ScaleType) (a b : Candidate)
      (notes : List Nat),
      (cmpFn hintRoot keyRoot kt a b ≤ 0 ↔
        lex4Le (rankKey hintRoot keyRoot kt a) (rankKey hintRoot keyRoot kt b)) ∧
      (sortedCandidates1 notes hintRoot keyRoot kt).Pairwise
        (fun x y => cmpFn hintRoot keyRoot kt x y ≤ 0) ∧
      (sortedCandidates1 notes hintRoot keyRoot kt).Perm (candidates1 notes keyRoot kt) ∧
      (∀ best others, sortedCandidates1 notes hintRoot keyRoot kt = best :: others →
        (analyzedChord1 notes hintRoot keyRoot kt).main = best.name ∧
        (analyzedChord1 notes hintRoot keyRoot kt).sub =
          (if others = [] then "Exact Match"
           else "Or: " ++ String.intercalate " / " (others.map (fun c => c.name)))) := by
  intro hintRoot keyRoot kt a b notes
  refine ⟨cmpFn_le_iff hintRoot keyRoot kt a b, ?_, List.perm_insertionSort _ _, ?_⟩
  · exact List.sorted_insertionSort (candidateOrder hintRoot keyRoot kt)
      (candidates1 notes keyRoot kt)
  · intro best others hs
    have hcand : candidates1 notes keyRoot kt ≠ [] := by
      intro hc
      have hnil : sortedCandidates1 notes hintRoot keyRoot kt = [] := by
        rw [sortedCandidates1, insertionSort_eq_nil_iff]
        exact hc
      rw [hs] at hnil
      exact List.noConfusion hnil
    have hu : ¬ uniqueSorted notes = [] := by
      intro hc
      exact hcand (by rw [candidates1, hc]; rfl)
    rw [analyzedChord1, if_neg hu, hs]
    exact ⟨rfl, rfl⟩

/-- C4 witness. -/
theorem c4_candidate_ranking_witness :
    (analyzedChord1 [0, 4, 7] none "C" ScaleType.major).main = "C" := by
  have h := ((c4_candidate_ranking none "C" ScaleType.major ⟨0, ""⟩ ⟨0, ""⟩
      [0, 4, 7]).2.2.2) ⟨0, "C"⟩ [⟨4, "Em(no5)"⟩] (by decide)
  exact h.1

/-- C3: for a diatonic root with extent Seventh, both variants' syntheses
replace the interval set with exactly the four diatonic intervals
`(0, (deg3 - root) mod 12, (deg5 - root) mod 12, (deg7 - root) mod 12)`,
where deg3/deg5/deg7 are the scale pitches 2, 4 and 6 degree positions above
the root's degree position, wrapping mod 7 — not a quality-determined generic
seventh (the equation holds for every quality string alike). -/
theorem c3_diatonic_seventh :
    ∀ (keyRoot : String) (kt : ScaleType) (root : Nat) (q : String),
      root ∈ currentKeyNotes keyRoot kt →
      synthIntervals1 keyRoot kt root q (some ChordType.seventh) ∅ =
        [0, ((currentKeyNotes keyRoot kt).getD
               (((currentKeyNotes keyRoot kt).indexOf root + 2) % 7) 0 + 12 - root) % 12,
            ((currentKeyNotes keyRoot kt).getD
               (((currentKeyNotes keyRoot kt).indexOf root + 4) % 7) 0 + 12 - root) % 12,
            ((currentKeyNotes keyRoot kt).getD
               (((currentKeyNotes keyRoot kt).indexOf root + 6) % 7) 0 + 12 - root) % 12] ∧
      synthIntervals2 keyRoot kt root q (some ChordType.seventh) ∅ =
        synthIntervals1 keyRoot kt root q (some ChordType.seventh) ∅ := by
  intro keyRoot kt root q h
  have happ : ∀ l : List Nat, applyMods1 ∅ l = l := fun _ => rfl
  have h1 : synthIntervals1 keyRoot kt root q (some ChordType.seventh) ∅ =
      [0, ((currentKeyNotes keyRoot kt).getD
             (((currentKeyNotes keyRoot kt).indexOf root + 2) % 7) 0 + 12 - root) % 12,
          ((currentKeyNotes keyRoot kt).getD
             (((currentKeyNotes keyRoot kt).indexOf root + 4) % 7) 0 + 12 - root) % 12,
          ((currentKeyNotes keyRoot kt).getD
             (((currentKeyNotes keyRoot kt).indexOf root + 6) % 7) 0 + 12 - root) % 12] := by
    simp only [synthIntervals1]
    rw [if_pos (⟨h, trivial⟩ : root ∈ currentKeyNotes keyRoot kt ∧ True)]
    exact happ _
  refine ⟨h1, ?_⟩
  rw [h1]
  simp only [synthIntervals2]
  rw [if_pos (⟨h, trivial⟩ : root ∈ currentKeyNotes keyRoot kt ∧ True)]
  rfl

/-- C3 witness: in C major, the diatonic seventh on the tonic is the major
seventh chord 0-4-7-11 (spec scenario 3's CMaj7). -/
theorem c3_diatonic_seventh_witness :
    (0 : Nat) ∈ currentKeyNotes "C" ScaleType.major ∧
    synthIntervals1 "C" ScaleType.major 0 "Maj" (some ChordType.seventh) ∅ = [0, 4, 7, 11] ∧
    synthIntervals2 "C" ScaleType.major 0 "Maj" (some ChordType.seventh) ∅ = [0, 4, 7, 11] := by
  have h := c3_diatonic_seventh "C" ScaleType.major 0 "Maj" (by decide)
  refine ⟨by decide, ?_, ?_⟩
  · rw [h.1]; decide
  · rw [h.2, h.1]; decide

namespace Khaen

theorem zero_mem_applyMod1 (m : Mod1) (l : List Nat) (h : 0 ∈ l) : 0 ∈ applyMod1 m l := by
  cases m <;> simp [applyMod1, h]

theorem zero_mem_applyMods1 (mods : Finset Mod1) (l : List Nat) (h : 0 ∈ l) :
    0 ∈ applyMods1 mods l := by
  rw [applyMods1]
  generalize mod1List.filter (fun m => decide (m ∈ mods)) = ms
  induction ms generalizing l with
  | nil => simpa using h
  | cons m ms ih =>
      rw [List.foldl_cons]
      exact ih _ (zero_mem_applyMod1 m l h)

theorem zero_mem_synthIntervals1 (keyRoot : String) (kt : ScaleType) (root : Nat) (q : String)
    (ty : Option ChordType) (mods : Finset Mod1) :
    0 ∈ synthIntervals1 keyRoot kt root q ty mods := by
  rw [synthIntervals1]
  apply zero_mem_applyMods1
  split_ifs <;> simp

theorem root_mem_targetVals1 (keyRoot : String) (kt : ScaleType) (root : Nat) (q : String)
    (ty : Option ChordType) (mods : Finset Mod1) (h12 : root < 12) :
    root ∈ targetVals1 keyRoot kt root q ty mods := by
  rw [targetVals1, List.mem_map]
  exact ⟨0, zero_mem_synthIntervals1 keyRoot kt root q ty mods,
    by simp [Nat.mod_eq_of_lt h12]⟩

theorem mem_uniqueSorted {notes : List Nat} {v : Nat} :
    v ∈ uniqueSorted notes ↔ v ∈ notes := by
  rw [uniqueSorted, (List.perm_insertionSort _ _).mem_iff, List.mem_dedup]

/-- If a candidate whose root is the hint root survives, the top-ranked
candidate's root is the hint root: the comparator puts hint-root candidates
strictly before all others. -/
theorem primaryRoot1_of_hint_candidate {notes : List Nat} {keyRoot : String} {kt : ScaleType}
    {root : Nat} {c : Candidate} (hc : c ∈ candidates1 notes keyRoot kt)
    (hroot : c.root = root) :
    primaryRoot1 notes (some root) keyRoot kt = some root := by
  have hsorted := List.sorted_insertionSort (candidateOrder (some root) keyRoot kt)
    (candidates1 notes keyRoot kt)
  have hm : c ∈ sortedCandidates1 notes (some root) keyRoot kt := by
    rw [sortedCandidates1, (List.perm_insertionSort _ _).mem_iff]
    exact hc
  rcases hl : sortedCandidates1 notes (some root) keyRoot kt with _ | ⟨b, t⟩
  · rw [hl] at hm
    exact absurd hm (List.not_mem_nil c)
  · rw [primaryRoot1, hl]
    have hb : b.root = root := by
      rw [hl] at hm
      rcases List.mem_cons.mp hm with hcb | hct
      · rw [← hcb]; exact hroot
      · by_contra hbne
        have hrel : candidateOrder (some root) keyRoot kt b c := by
          rw [sortedCandidates1] at hl
          rw [List.Sorted, hl] at hsorted
          exact (List.pairwise_cons.mp hsorted).1 c hct
        rw [candidateOrder, cmpFn, if_neg, if_pos ⟨hroot, hbne⟩] at hrel
        · omega
        · intro hcontra
          exact hbne hcontra.1
    simp [hb]

end Khaen

/-- C1 (counterexample): root 0, quality Maj, extent triad, modifiers
{no3, no5, add11} synthesize the pitch set {0, 5} — two distinct pitch
classes — yet with hintRoot = 0 the analyzer's primary candidate has root 5
("F5" is the only surviving candidate; root 0 matches no shape predicate),
so the primary name's root component is not the synthesis root. -/
theorem c1_roundtrip_counterexample :
    (uniqueSorted (targetVals1 "A" ScaleType.minor 0 "Maj" (some ChordType.triad)
        ({Mod1.no3, Mod1.no5, Mod1.add11} : Finset Mod1))).length = 2 ∧
    primaryRoot1 (targetVals1 "A" ScaleType.minor 0 "Maj" (some ChordType.triad)
        ({Mod1.no3, Mod1.no5, Mod1.add11} : Finset Mod1)) (some 0) "A" ScaleType.minor =
      some 5 := by
  decide

/-- C1 (amended): the round-trip holds whenever the synthesized pitch set,
viewed from the synthesis root, still matches one of the analyzer's shape
predicates (having at least 2 distinct pitch classes is not sufficient):
for every root 0-11, quality in {Maj, m, dim}, extent in {triad, 7th} and
modifier set, if `classify1` accepts the interval set at `root`, then
analyzing the synthesized set with hintRoot = root yields a primary
candidate whose root equals `root`. -/
theorem c1_roundtrip_amended :
    ∀ (keyRoot : String) (kt : ScaleType) (root : Nat) (q : String) (ty : Option ChordType)
      (mods : Finset Mod1),
      root < 12 →
      q ∈ ["Maj", "m", "dim"] →
      (ty = some ChordType.triad ∨ ty = some ChordType.seventh) →
      (classify1 (intsAt (uniqueSorted (targetVals1 keyRoot kt root q ty mods)) root)).isSome →
      primaryRoot1 (targetVals1 keyRoot kt root q ty mods) (some root) keyRoot kt =
        some root := by
  intro keyRoot kt root q ty mods h12 _hq _hty hvalid
  obtain ⟨bt, hbt⟩ := Option.isSome_iff_exists.mp hvalid
  have hmem : root ∈ uniqueSorted (targetVals1 keyRoot kt root q ty mods) :=
    mem_uniqueSorted.mpr (root_mem_targetVals1 keyRoot kt root q ty mods h12)
  have hc : candAt1 (uniqueSorted (targetVals1 keyRoot kt root q ty mods)) keyRoot kt root =
      some ⟨root, buildName1 (intsAt (uniqueSorted (targetVals1 keyRoot kt root q ty mods)) root)
        bt (getDisplayNote root keyRoot kt)⟩ := by
    rw [candAt1]
    rw [hbt]
  have hcand : (⟨root, buildName1
        (intsAt (uniqueSorted (targetVals1 keyRoot kt root q ty mods)) root) bt
        (getDisplayNote root keyRoot kt)⟩ : Candidate) ∈
      candidates1 (targetVals1 keyRoot kt root q ty mods) keyRoot kt :=
    List.mem_filterMap.mpr ⟨root, hmem, hc⟩
  exact primaryRoot1_of_hint_candidate hcand rfl

/-- C1 witness: the A-minor triad (root 9, quality m, no modifiers) in the
key of A minor — spec scenario 2's "Am" — round-trips to primary root 9. -/
theorem c1_roundtrip_amended_witness :
    (9 : Nat) < 12 ∧
    (Khaen.classify1 (intsAt (uniqueSorted
        (targetVals1 "A" ScaleType.minor 9 "m" (some ChordType.triad) ∅)) 9)).isSome ∧
    primaryRoot1 (targetVals1 "A" ScaleType.minor 9 "m" (some ChordType.triad) ∅)
        (some 9) "A" ScaleType.minor = some 9 :=
  ⟨by decide, by decide,
    c1_roundtrip_amended "A" ScaleType.minor 9 "m" (some ChordType.triad) ∅
      (by decide) (by decide) (Or.inl rfl) (by decide)⟩

namespace Khaen

theorem allHoles_deg_lt : ∀ h ∈ ALL_HOLES, h.degIndex < 7 := by decide

theorem allHoles_find_self :
    ∀ h ∈ ALL_HOLES, ALL_HOLES.find? (fun h2 => h2.id == h.id) = some h := by decide

theorem allHoles_id_inj :
    ∀ h ∈ ALL_HOLES, ∀ h2 ∈ ALL_HOLES, h.id = h2.id → h = h2 := by decide

theorem allHoles_deg_covered :
    ∀ d : Fin 7, ∃ h ∈ ALL_HOLES, h.degIndex = (d : Nat) := by decide

theorem currentKeyNotes_length (keyRoot : String) (kt : ScaleType) :
    (currentKeyNotes keyRoot kt).length = 7 := by
  cases kt <;> rfl

/-- Every scale pitch is sounded by some hole (the 16 holes cover all 7
degree indices), and every hole sounds a scale pitch. -/
theorem holes_cover (keyRoot : String) (kt : ScaleType) (p : Nat) :
    p ∈ currentKeyNotes keyRoot kt ↔ ∃ h ∈ ALL_HOLES, holePitch keyRoot kt h = p := by
  constructor
  · intro hp
    obtain ⟨n, hn, he⟩ := List.mem_iff_getElem.mp hp
    have hn7 : n < 7 := by rwa [currentKeyNotes_length] at hn
    obtain ⟨h, hh, hd⟩ := allHoles_deg_covered ⟨n, hn7⟩
    refine ⟨h, hh, ?_⟩
    rw [holePitch, hd, List.getD_eq_getElem _ _ hn, he]
  · rintro ⟨h, hh, hp⟩
    have hlt : h.degIndex < (currentKeyNotes keyRoot kt).length := by
      rw [currentKeyNotes_length]
      exact allHoles_deg_lt h hh
    rw [holePitch, List.getD_eq_getElem _ _ hlt] at hp
    rw [← hp]
    exact List.getElem_mem hlt

theorem mem_newHoleIds (tv : List Nat) (keyRoot : String) (kt : ScaleType)
    (h : HoleConfig) (hh : h ∈ ALL_HOLES) :
    h.id ∈ newHoleIds tv keyRoot kt ↔ holePitch keyRoot kt h ∈ tv := by
  rw [newHoleIds]
  simp only [List.mem_map, List.mem_filter, decide_eq_true_iff]
  constructor
  · rintro ⟨h2, ⟨hh2, hp2⟩, hid⟩
    rw [allHoles_id_inj h hh h2 hh2 hid.symm]
    exact hp2
  · intro hp
    exact ⟨h, ⟨hh, hp⟩, rfl⟩

theorem mem_activeNoteValues_newHoleIds (tv : List Nat) (keyRoot : String) (kt : ScaleType)
    (p : Nat) :
    p ∈ activeNoteValues (newHoleIds tv keyRoot kt) keyRoot kt ↔
      p ∈ tv ∧ p ∈ currentKeyNotes keyRoot kt := by
  rw [activeNoteValues, List.mem_dedup, List.mem_filterMap]
  constructor
  · rintro ⟨i, hi, hfm⟩
    rw [newHoleIds] at hi
    simp only [List.mem_map, List.mem_filter, decide_eq_true_iff] at hi
    obtain ⟨h, ⟨hh, hp⟩, hid⟩ := hi
    rw [← hid, allHoles_find_self h hh] at hfm
    simp only [Option.map_some'] at hfm
    rw [Option.some_inj] at hfm
    exact ⟨hfm ▸ hp, (holes_cover keyRoot kt p).mpr ⟨h, hh, hfm⟩⟩
  · rintro ⟨hptv, hpscale⟩
    obtain ⟨h, hh, hp⟩ := (holes_cover keyRoot kt p).mp hpscale
    refine ⟨h.id, ?_, ?_⟩
    · rw [newHoleIds]
      simp only [List.mem_map, List.mem_filter, decide_eq_true_iff]
      exact ⟨h, ⟨hh, by rw [hp]; exact hptv⟩, rfl⟩
    · rw [allHoles_find_self h hh]
      simp [hp]

end Khaen

/-- C10: applying a preset in the hole-identity variant activates exactly the
holes whose current sounding pitch lies in the synthesized target set, and
consequently the pitch set the analyzer sees (`activeNoteValues`) is exactly
the synthesized set intersected with the current key's scale pitches —
synthesized pitch classes outside the scale are silently absent. -/
theorem c10_preset_hole_projection :
    ∀ (keyRoot : String) (kt : ScaleType) (root : Nat) (q : String) (ty : Option ChordType)
      (mods : Finset Mod2) (h : HoleConfig) (p : Nat),
      (h ∈ ALL_HOLES →
        (h.id ∈ newHoleIds (targetVals2 keyRoot kt root q ty mods) keyRoot kt ↔
          holePitch keyRoot kt h ∈ targetVals2 keyRoot kt root q ty mods)) ∧
      (p ∈ activeNoteValues (newHoleIds (targetVals2 keyRoot kt root q ty mods) keyRoot kt)
          keyRoot kt ↔
        p ∈ targetVals2 keyRoot kt root q ty mods ∧ p ∈ currentKeyNotes keyRoot kt) :=
  fun keyRoot kt root q ty mods h p =>
    ⟨fun hh => mem_newHoleIds _ keyRoot kt h hh,
     mem_activeNoteValues_newHoleIds _ keyRoot kt p⟩

/-- C10 witness: in C major with the C-major triad preset, hole R8
(degree 0, sounding C) is activated, and pitch 0 is in the analyzer's
derived pitch set. -/
theorem c10_preset_hole_projection_witness :
    ((⟨"R8", 0, "1", "num-green"⟩ : HoleConfig).id ∈
        newHoleIds (targetVals2 "C" ScaleType.major 0 "Maj" (some ChordType.triad) ∅)
          "C" ScaleType.major ↔
      holePitch "C" ScaleType.major ⟨"R8", 0, "1", "num-green"⟩ ∈
        targetVals2 "C" ScaleType.major 0 "Maj" (some ChordType.triad) ∅) ∧
    ((0 : Nat) ∈ activeNoteValues
        (newHoleIds (targetVals2 "C" ScaleType.major 0 "Maj" (some ChordType.triad) ∅)
          "C" ScaleType.major) "C" ScaleType.major ↔
      (0 : Nat) ∈ targetVals2 "C" ScaleType.major 0 "Maj" (some ChordType.triad) ∅ ∧
      (0 : Nat) ∈ currentKeyNotes "C" ScaleType.major) :=
  ⟨(c10_preset_hole_projection "C" ScaleType.major 0 "Maj" (some ChordType.triad) ∅
      ⟨"R8", 0, "1", "num-green"⟩ 0).1 (by decide),
   (c10_preset_hole_projection "C" ScaleType.major 0 "Maj" (some ChordType.triad) ∅
      ⟨"R8", 0, "1", "num-green"⟩ 0).2⟩

/-- C5 (counterexample): clicking the same hole twice leaves the active set
empty but the hint root still set — the hint root is not cleared when the
active pitch set becomes empty — and a MIDI note-on into an empty set does
not set the hint root at all. -/
theorem c5_hint_lifecycle_counterexample :
    (handleHoleClick1 "C" ScaleType.major 0 (handleHoleClick1 "C" ScaleType.major 0
        ⟨[], none, noneSelection1⟩)).activeNotes = [] ∧
    (handleHoleClick1 "C" ScaleType.major 0 (handleHoleClick1 "C" ScaleType.major 0
        ⟨[], none, noneSelection1⟩)).hintRoot = some 0 ∧
    (onMIDIMessage1 144 64 100 ⟨[], none, noneSelection1⟩).activeNotes = [4] ∧
    (onMIDIMessage1 144 64 100 ⟨[], none, noneSelection1⟩).hintRoot = none := by
  decide

/-- C5 (amended): the hint root is set on preset selection and by the first
manual hole click into an empty set (in both variants); a click that removes
an already-active note/hole leaves it unchanged; MIDI events never modify it
(in either variant); and it is cleared only by the global reset — not
automatically when the active set becomes empty. -/
theorem c5_hint_lifecycle_amended :
    ∀ (keyRoot : String) (kt : ScaleType) (s1 : AppState1) (s2 : AppState2)
      (rootVal d d0 d1 d2 : Nat) (q : String) (ty : ChordType) (holeId : String),
      (selectChord1 rootVal q ty false s1).hintRoot = some rootVal ∧
      (s1.activeNotes = [] →
        (handleHoleClick1 keyRoot kt d s1).hintRoot =
          some ((currentKeyNotes keyRoot kt).getD d 0)) ∧
      ((currentKeyNotes keyRoot kt).getD d 0 ∈ s1.activeNotes →
        (handleHoleClick1 keyRoot kt d s1).hintRoot = s1.hintRoot) ∧
      (onMIDIMessage1 d0 d1 d2 s1).hintRoot = s1.hintRoot ∧
      resetAll1.hintRoot = none ∧
      (s2.activeHoleIds = [] →
        (handleHoleClick2 keyRoot kt holeId d s2).hintRoot =
          some ((currentKeyNotes keyRoot kt).getD d 0)) ∧
      (holeId ∈ s2.activeHoleIds →
        (handleHoleClick2 keyRoot kt holeId d s2).hintRoot = s2.hintRoot) ∧
      (onMIDIMessage2 keyRoot kt d0 d1 d2 s2).hintRoot = s2.hintRoot := by
  intro keyRoot kt s1 s2 rootVal d d0 d1 d2 q ty holeId
  refine ⟨rfl, fun h => ?_, fun h => ?_, ?_, rfl, fun h => ?_, fun h => ?_, ?_⟩
  · simp [handleHoleClick1, h]
  · simp only [handleHoleClick1]
    rw [if_neg (fun hc => hc.1 h)]
  · rw [onMIDIMessage1]
    split_ifs <;> rfl
  · simp [handleHoleClick2, h]
  · simp only [handleHoleClick2]
    rw [if_neg (fun hc => hc.1 h)]
  · rw [onMIDIMessage2]
    split_ifs <;> rfl

/-- C5 witness: clicking degree 2 in C major from the empty state sets the
hint root to pitch 4 (E). -/
theorem c5_hint_lifecycle_amended_witness :
    (handleHoleClick1 "C" ScaleType.major 2 ⟨[], none, noneSelection1⟩).hintRoot = some 4 := by
  have h := (c5_hint_lifecycle_amended "C" ScaleType.major ⟨[], none, noneSelection1⟩
      ⟨[], none, noneSelection2⟩ 0 2 0 0 0 "Maj" ChordType.triad "L1").2.1 rfl
  rw [h]
  decide

/-- C6 (counterexample): toggling a modifier with no preset active writes a
ChordSelection that is not all-"none" (its modifier set is non-empty while
rootVal stays null), so preset selection is not the only path that writes a
non-none ChordSelection. -/
theorem c6_selection_reset_counterexample :
    (toggleMod1 Mod1.add9 ⟨[], none, noneSelection1⟩).selection ≠ noneSelection1 ∧
    (toggleMod1 Mod1.add9 ⟨[], none, noneSelection1⟩).selection.rootVal = none := by
  decide

/-- C6 (amended): every manual hole click resets the ChordSelection to
all-"none" and mutates the active set independently of the prior selection
(in both variants); every MIDI note-on/note-off event does the same; preset
selection writes the full non-none selection; but the modifier-toggle
handler is a further path that writes a (partially) non-none selection. -/
theorem c6_manual_midi_reset_amended :
    ∀ (keyRoot : String) (kt : ScaleType) (d d0 d1 d2 : Nat) (s1 : AppState1)
      (s2 : AppState2) (holeId : String) (sel1 : ChordSelection1)
      (sel2 : ChordSelection2) (rootVal : Nat) (q : String) (ty : ChordType),
      (handleHoleClick1 keyRoot kt d s1).selection = noneSelection1 ∧
      handleHoleClick1 keyRoot kt d { s1 with selection := sel1 } =
        handleHoleClick1 keyRoot kt d s1 ∧
      (handleHoleClick2 keyRoot kt holeId d s2).selection = noneSelection2 ∧
      handleHoleClick2 keyRoot kt holeId d { s2 with selection := sel2 } =
        handleHoleClick2 keyRoot kt holeId d s2 ∧
      ((d0 &&& 240 = 144 ∧ d2 > 0) ∨ d0 &&& 240 = 128 ∨ (d0 &&& 240 = 144 ∧ d2 = 0) →
        (onMIDIMessage1 d0 d1 d2 s1).selection = noneSelection1 ∧
        (onMIDIMessage2 keyRoot kt d0 d1 d2 s2).selection = noneSelection2 ∧
        onMIDIMessage1 d0 d1 d2 { s1 with selection := sel1 } =
          onMIDIMessage1 d0 d1 d2 s1 ∧
        onMIDIMessage2 keyRoot kt d0 d1 d2 { s2 with selection := sel2 } =
          onMIDIMessage2 keyRoot kt d0 d1 d2 s2) ∧
      (selectChord1 rootVal q ty false s1).selection = ⟨some rootVal, some q, some ty, ∅⟩ := by
  intro keyRoot kt d d0 d1 d2 s1 s2 holeId sel1 sel2 rootVal q ty
  refine ⟨rfl, rfl, rfl, rfl, fun hcmd => ?_, rfl⟩
  have hon1 : ∀ t : AppState1, (d0 &&& 240 = 144 ∧ d2 > 0) →
      onMIDIMessage1 d0 d1 d2 t =
        { t with selection := noneSelection1, activeNotes := t.activeNotes ++ [d1 % 12] } := by
    intro t h
    rw [onMIDIMessage1, if_pos h]
  have hoff1 : ∀ t : AppState1, ¬(d0 &&& 240 = 144 ∧ d2 > 0) →
      (d0 &&& 240 = 128 ∨ (d0 &&& 240 = 144 ∧ d2 = 0)) →
      onMIDIMessage1 d0 d1 d2 t =
        { t with selection := noneSelection1,
                 activeNotes := t.activeNotes.filter (fun n => decide (n ≠ d1 % 12)) } := by
    intro t hn h
    rw [onMIDIMessage1, if_neg hn, if_pos h]
  have hon2 : ∀ t : AppState2, (d0 &&& 240 = 144 ∧ d2 > 0) →
      onMIDIMessage2 keyRoot kt d0 d1 d2 t =
        { t with selection := noneSelection2,
                 activeHoleIds :=
                   (ALL_HOLES.filter
                     (fun h => decide (holePitch keyRoot kt h = d1 % 12))).foldl
                     (fun acc h => jsSetAdd acc h.id) t.activeHoleIds } := by
    intro t h
    rw [onMIDIMessage2, if_pos h]
  have hoff2 : ∀ t : AppState2, ¬(d0 &&& 240 = 144 ∧ d2 > 0) →
      (d0 &&& 240 = 128 ∨ (d0 &&& 240 = 144 ∧ d2 = 0)) →
      onMIDIMessage2 keyRoot kt d0 d1 d2 t =
        { t with selection := noneSelection2,
                 activeHoleIds := t.activeHoleIds.filter (fun i => decide (i ∉
                   ((ALL_HOLES.filter
                     (fun h => decide (holePitch keyRoot kt h = d1 % 12))).map
                     (fun h => h.id)))) } := by
    intro t hn h
    rw [onMIDIMessage2, if_neg hn, if_pos h]
  by_cases hon : d0 &&& 240 = 144 ∧ d2 > 0
  · rw [hon1 _ hon, hon1 _ hon, hon2 _ hon, hon2 _ hon]
    exact ⟨rfl, rfl, rfl, rfl⟩
  · have hoff : d0 &&& 240 = 128 ∨ (d0 &&& 240 = 144 ∧ d2 = 0) := by
      rcases hcmd with h | h | h
      · exact absurd h hon
      · exact Or.inl h
      · exact Or.inr h
    rw [hoff1 _ hon hoff, hoff1 _ hon hoff, hoff2 _ hon hoff, hoff2 _ hon hoff]
    exact ⟨rfl, rfl, rfl, rfl⟩

/-- C6 witness: a concrete MIDI note-on clears a previously non-none
selection back to all-"none". -/
theorem c6_manual_midi_reset_amended_witness :
    (onMIDIMessage1 144 64 100
        ⟨[0], some 0, ⟨some 0, some "Maj", some ChordType.triad, ∅⟩⟩).selection =
      noneSelection1 := by
  have h := (c6_manual_midi_reset_amended "C" ScaleType.major 0 144 64 100
      ⟨[0], some 0, ⟨some 0, some "Maj", some ChordType.triad, ∅⟩⟩
      ⟨[], none, noneSelection2⟩ "L1" noneSelection1 noneSelection2 0 "Maj"
      ChordType.triad).2.2.2.2.1 (Or.inl ⟨by decide, by decide⟩)
  exact h.1

/-- C2 (counterexample): on the interval set {0,4,8} (an augmented triad) the
ordered predicate list stated by the claim yields "aug", but variant 1's
analyzer has no augmented predicate and classifies the set as a no-fifth
major, so the claim's list is not the list variant 1 tests. -/
theorem c2_counterexample :
    Khaen.classify1 ({0, 4, 8} : Finset Nat) = some "no5Maj" ∧
    Khaen.specShapeList ({0, 4, 8} : Finset Nat) = some "aug" := by
  constructor <;> rfl

/-- C2 (amended): variant 2's analyzer tests every candidate root against
exactly the claim's ordered predicate list, first match winning, discarding
(`none`) a root that matches none; variant 1's analyzer tests the same list
with the augmented predicate omitted and with a no-fifth test that does not
exclude an augmented fifth. -/
theorem c2_shape_predicates :
    (∀ ints : Finset Nat, Khaen.classify2 ints = Khaen.specShapeList ints) ∧
    (∀ ints : Finset Nat, Khaen.classify1 ints = Khaen.specShapeListNoAug ints) := by
  exact ⟨fun _ => rfl, fun _ => rfl⟩

/-- C8: for every root pitch class and mode, the scale build yields 7 pitch
classes, degree `i` being `(root + intervals[mode][i]) % 12` with the claimed
interval tables; the 7 pitches are pairwise distinct and realize the step
patterns 2,2,1,2,2,2,1 (major) and 2,1,2,2,1,2,2 (minor), the last step
wrapping back to the root. -/
theorem c8_buildScale_correct :
    ∀ (root : Fin 12) (kt : Khaen.ScaleType),
      Khaen.scaleIntervals Khaen.ScaleType.major = [0, 2, 4, 5, 7, 9, 11] ∧
      Khaen.scaleIntervals Khaen.ScaleType.minor = [0, 2, 3, 5, 7, 8, 10] ∧
      (Khaen.buildScale root kt).length = 7 ∧
      (∀ i : Fin 7, (Khaen.buildScale root kt).getD i 0 =
        ((root : Nat) + (Khaen.scaleIntervals kt).getD i 0) % 12) ∧
      (Khaen.buildScale root kt).Nodup ∧
      (∀ i : Fin 6, ((Khaen.buildScale root kt).getD (i + 1) 0 + 12 -
          (Khaen.buildScale root kt).getD i 0) % 12 = (Khaen.stepPattern kt).getD i 0) ∧
      ((Khaen.buildScale root kt).getD 0 0 + 12 -
          (Khaen.buildScale root kt).getD 6 0) % 12 = (Khaen.stepPattern kt).getD 6 0 := by
  decide
